import Mathlib

/-!
Verification of the StartupOps core: cross-stage task-graph assembly
(`AgentOrchestrator._save_all_tasks_with_dependencies` in
`backend/app/services/orchestrator.py`), execution-health scoring
(`DriftEngine` in `backend/app/services/drift_engine.py`), and the agent
pipeline (`backend/app/agents/graph.py`, `backend/app/agents/base.py`).

All definitions are shallow embeddings of the Python source; rational
numbers stand for Python's float arithmetic, and the opaque database ids
assigned at flush time are modelled by an arbitrary function on the
positional (global-index) ids.
-/

namespace StartupOps

/-- A value appearing in a RawTask's `dependencies` list.  `intRef d`
models a value for which Python's `isinstance(v, int)` holds; `nonIntRef`
models any other JSON value (string, float, ...), which the resolution
loop in `orchestrator.py` skips. -/
inductive LocalRef where
  | intRef (d : Int)
  | nonIntRef
deriving DecidableEq, Repr

/-- A task dict as emitted by a stage agent.  Fields mirror the keys read
by `_save_all_tasks_with_dependencies` via `.get`; absent keys are `none`.
The `status` field models a stray `status` key possibly present in the
stage output (it is never read by the orchestrator). -/
structure RawTask where
  title : Option String := none
  description : Option String := none
  priority : Option Int := none
  estimated_days : Option Int := none
  status : Option String := none
  dependencies : List LocalRef := []
deriving DecidableEq, Repr

/-- The four task-emitting departments (`TaskCategory` in the source;
`advisor` emits no tasks). -/
inductive Dept where
  | product
  | tech
  | marketing
  | finance
deriving DecidableEq, Repr

/-- Statuses of `TaskStatus` from `app/models/task.py`. -/
inductive TaskStatus where
  | pending
  | in_progress
  | completed
deriving DecidableEq, Repr

/-- A persisted `Task` row as built by the orchestrator.  `idx` is the
task's id: before the database flush it is the global index assigned in
stage order; `remapTask` later replaces it by the database id. -/
structure GTask where
  idx : Nat
  dept : Dept
  title : String
  description : Option String
  priority : Int
  estimated_days : Int
  status : TaskStatus
  deps : List Nat
deriving DecidableEq, Repr

/-- Resolution of one local dependency value for a stage whose global
indices start at `b` and which has `l` tasks: the Python loop keeps
`local_dep` iff `isinstance(local_dep, int) and local_dep >= 0` and
`(dept, local_dep) in task_id_map`, i.e. `local_dep < l`; the resolved
global index is `b + local_dep`. -/
def resolveRef (b l : Nat) : LocalRef → Option Nat
  | .intRef d => if 0 ≤ d ∧ d < (l : Int) then some (b + d.toNat) else none
  | .nonIntRef => none

/-- The cross-department dependencies appended by the orchestrator: the
first tech task (local index 0) gains product's first global index `0`
when `product_tasks` is non-empty (`0 < p`); the first marketing and the
first finance task each gain tech's first global index `p` when
`tech_tasks` is non-empty (`0 < t`). -/
def synthDeps (p t : Nat) : Dept → Nat → List Nat
  | .product, _ => []
  | .tech, loc => if loc = 0 ∧ 0 < p then [0] else []
  | .marketing, loc => if loc = 0 ∧ 0 < t then [p] else []
  | .finance, loc => if loc = 0 ∧ 0 < t then [p] else []

/-- Build the `Task` row for the raw task at local index `loc` of a stage
based at `b` with `l` tasks (`p`, `t` are the product/tech task counts).
Field defaults mirror `Task(...)` construction in the source; the
dependency list is the resolved local dependencies followed by the
synthesized cross-department ones, deduplicated (`list(set(...))`). -/
def mkTask (b l p t : Nat) (dept : Dept) (loc : Nat) (r : RawTask) : GTask :=
  { idx := b + loc
    dept := dept
    title := r.title.getD "Untitled Task"
    description := r.description
    priority := r.priority.getD 3
    estimated_days := r.estimated_days.getD 1
    status := .pending
    deps := (r.dependencies.filterMap (resolveRef b l) ++ synthDeps p t dept loc).dedup }

/-- Tasks of one stage, local indices counting up from `loc`. -/
def buildStageAux (b l p t : Nat) (dept : Dept) : Nat → List RawTask → List GTask
  | _, [] => []
  | loc, r :: rest => mkTask b l p t dept loc r :: buildStageAux b l p t dept (loc + 1) rest

/-- Tasks of one stage, local indices from 0. -/
def buildStage (b l p t : Nat) (dept : Dept) (ts : List RawTask) : List GTask :=
  buildStageAux b l p t dept 0 ts

/-- The merged task graph, stages in the fixed order
product, tech, marketing, finance, with global indices assigned in that
order — the pure core of `_save_all_tasks_with_dependencies` up to the
database flush. -/
def buildGraph (prod tech mkt fin : List RawTask) : List GTask :=
  buildStage 0 prod.length prod.length tech.length .product prod ++
  buildStage prod.length tech.length prod.length tech.length .tech tech ++
  buildStage (prod.length + tech.length) mkt.length prod.length tech.length .marketing mkt ++
  buildStage (prod.length + tech.length + mkt.length) fin.length prod.length tech.length .finance fin

/-- The post-flush rewrite: `id_mapping = {i: saved_tasks[i].id}` and
`task.dependencies = [id_mapping.get(d, d) for d in task.dependencies if d
in id_mapping]`, with `dbId i` the database id of the `i`-th saved task;
`n` is the number of saved tasks. -/
def remapTask (n : Nat) (dbId : Nat → Nat) (x : GTask) : GTask :=
  { x with idx := dbId x.idx, deps := (x.deps.filter (fun d => d < n)).map dbId }

/-- The saved tasks after the database flush rewrote positional ids into
database ids. -/
def savedTasks (dbId : Nat → Nat) (prod tech mkt fin : List RawTask) : List GTask :=
  (buildGraph prod tech mkt fin).map
    (remapTask (prod.length + tech.length + mkt.length + fin.length) dbId)

/-- Dependency list of the task at global position `k` (empty when out of
range). -/
def depsAt (ts : List GTask) (k : Nat) : List Nat :=
  ((ts[k]?).map GTask.deps).getD []

/-- The locally-declared dependencies of a raw task after resolution. -/
def localResolved (b l : Nat) (r : RawTask) : List Nat :=
  r.dependencies.filterMap (resolveRef b l)

/-- Task `i` depends on task `j` in the assembled graph. -/
def Depends (ts : List GTask) (i j : Nat) : Prop :=
  ∃ x ∈ ts, x.idx = i ∧ j ∈ x.deps

/-- The dependency relation has no (non-empty) cycle. -/
def AcyclicGraph (ts : List GTask) : Prop :=
  ∀ i, ¬ Relation.TransGen (Depends ts) i i

/-- Every task except the first tech, first marketing and first finance
task carries only its locally declared, resolved dependencies (no
synthesized cross-department edge). -/
def NoSynthElsewhere (prod tech mkt fin : List RawTask) : Prop :=
  (∀ k r, prod[k]? = some r →
    ∀ d ∈ depsAt (buildGraph prod tech mkt fin) k, d ∈ localResolved 0 prod.length r) ∧
  (∀ k r, 0 < k → tech[k]? = some r →
    ∀ d ∈ depsAt (buildGraph prod tech mkt fin) (prod.length + k),
      d ∈ localResolved prod.length tech.length r) ∧
  (∀ k r, 0 < k → mkt[k]? = some r →
    ∀ d ∈ depsAt (buildGraph prod tech mkt fin) (prod.length + tech.length + k),
      d ∈ localResolved (prod.length + tech.length) mkt.length r) ∧
  (∀ k r, 0 < k → fin[k]? = some r →
    ∀ d ∈ depsAt (buildGraph prod tech mkt fin)
        (prod.length + tech.length + mkt.length + k),
      d ∈ localResolved (prod.length + tech.length + mkt.length) fin.length r)

/-- Every task's dependency list is duplicate-free and refers only to ids
of tasks present in the same list. -/
def WellFormedDeps (ts : List GTask) : Prop :=
  ∀ x ∈ ts, x.deps.Nodup ∧ ∀ d ∈ x.deps, ∃ y ∈ ts, y.idx = d

/-- Drop the dependency values of one raw task that do not resolve within
a stage of `l` tasks (out of range, negative, or not an `int`). -/
def sanitizeTask (l : Nat) (r : RawTask) : RawTask :=
  { r with dependencies := r.dependencies.filter (fun ref => (resolveRef 0 l ref).isSome) }

/-- Drop all unresolvable dependency values of a stage's raw task list. -/
def sanitizeStage (ts : List RawTask) : List RawTask :=
  ts.map (sanitizeTask ts.length)

/-- Check of one task's dependency values: every integer value that is in
range for a stage of `l` tasks (`0 ≤ d < l`) must point strictly backward
(`d` smaller than the task's local index `i`).  Out-of-range, negative
and non-integer values are unconstrained — the resolution filter drops
them, so they can never create an edge. -/
def refsInRangeBackward (l i : Nat) : List LocalRef → Bool
  | [] => true
  | .intRef d :: rest =>
      decide ((0 ≤ d ∧ d < (l : Int)) → d < (i : Int)) && refsInRangeBackward l i rest
  | .nonIntRef :: rest => refsInRangeBackward l i rest

/-- All raw tasks of a stage of `l` tasks (local indices counting from
`i`) declare only backward in-range integer dependencies; any number of
unresolvable values is allowed. -/
def stageInRangeBackward (l : Nat) : Nat → List RawTask → Bool
  | _, [] => true
  | i, r :: rest =>
      refsInRangeBackward l i r.dependencies && stageInRangeBackward l (i + 1) rest

/-! ## DriftEngine (`backend/app/services/drift_engine.py`) -/

/-- A task snapshot as read back from the database by the drift engine. -/
structure DTask where
  id : Nat
  title : String := ""
  priority : Int := 3
  status : TaskStatus
  dependencies : List Nat := []
deriving DecidableEq, Repr

/-- The map `task_status = {task.id: task.status for task in tasks}` — a Python
dict comprehension, so for duplicate ids the last occurrence wins. -/
def statusOf : List DTask → Nat → Option TaskStatus
  | [], _ => none
  | u :: rest, i =>
      match statusOf rest i with
      | some s => some s
      | none => if u.id = i then some u.status else none

/-- One dependency id blocks iff it is present in the status map with a
status other than Completed (`dep_id in task_status and
task_status[dep_id] != TaskStatus.COMPLETED`). -/
def depBlocks (tasks : List DTask) (d : Nat) : Bool :=
  (statusOf tasks d).elim false (fun s => decide (s ≠ .completed))

/-- The `blocked_by` list computed by `_check_dependency_blocks`. -/
def blockedBy (tasks : List DTask) (u : DTask) : List Nat :=
  u.dependencies.filter (depBlocks tasks)

/-- The tasks reported by `_check_dependency_blocks`: status Pending, a
non-empty (truthy) dependency list, and a non-empty `blocked_by`. -/
def dependencyBlocks (tasks : List DTask) : List DTask :=
  tasks.filter (fun u =>
    decide (u.status = .pending) && !u.dependencies.isEmpty && !(blockedBy tasks u).isEmpty)

/-- The per-task blocked test of the `blocked` counter in
`_calculate_execution_score` (increment and `break` on the first
present-and-not-completed dependency). -/
def isBlocked (tasks : List DTask) (u : DTask) : Bool :=
  decide (u.status = .pending) && !u.dependencies.isEmpty &&
    u.dependencies.any (depBlocks tasks)

def countCompleted (tasks : List DTask) : Nat :=
  (tasks.filter (fun u => decide (u.status = .completed))).length

def countInProgress (tasks : List DTask) : Nat :=
  (tasks.filter (fun u => decide (u.status = .in_progress))).length

def blockedCount (tasks : List DTask) : Nat :=
  (tasks.filter (isBlocked tasks)).length

/-- Source: `completion_score = (completed / total) * 100 if total > 0 else 100`. -/
def completionScoreOf (tasks : List DTask) : ℚ :=
  if 0 < tasks.length then (countCompleted tasks : ℚ) / tasks.length * 100 else 100

/-- Source: `progress_score = ((completed + in_progress * 0.5) / total) * 100 if
total > 0 else 100`. -/
def progressScoreOf (tasks : List DTask) : ℚ :=
  if 0 < tasks.length then
    ((countCompleted tasks : ℚ) + (countInProgress tasks : ℚ) * 0.5) / tasks.length * 100
  else 100

/-- Source: `block_penalty_score = (blocked / total) * 100 if total > 0 else 0`. -/
def blockScoreOf (tasks : List DTask) : ℚ :=
  if 0 < tasks.length then (blockedCount tasks : ℚ) / tasks.length * 100 else 0

/-- Source: `max(0, min(100, x))`, written with explicit comparisons so that the
kernel can evaluate it. -/
def clampScore (x : ℚ) : ℚ :=
  if x < 0 then 0 else if 100 < x then 100 else x

/-- The `final_score` after the weighting and the clamp: weights 0.6 / 0.3 and
block penalty 0.1. -/
def rawFinalScore (tasks : List DTask) : ℚ :=
  clampScore (completionScoreOf tasks * 0.6 + progressScoreOf tasks * 0.3 -
    blockScoreOf tasks * 0.1)

inductive HealthStatus where
  | healthy
  | at_risk
  | critical
deriving DecidableEq, Repr

/-- Status thresholds applied to the (clamped, unrounded) final score. -/
def statusOfScore (x : ℚ) : HealthStatus :=
  if 70 ≤ x then .healthy else if 40 ≤ x then .at_risk else .critical

/-- Round a rational to the nearest integer, ties to even — the model of
Python's `round`. -/
def roundHalfEven (x : ℚ) : ℤ :=
  if x - Int.floor x < 1/2 then Int.floor x
  else if (1:ℚ)/2 < x - Int.floor x then Int.floor x + 1
  else if Int.floor x % 2 = 0 then Int.floor x else Int.floor x + 1

/-- Source: `round(x, 1)`. -/
def round1 (x : ℚ) : ℚ :=
  (roundHalfEven (x * 10) : ℚ) / 10

/-- The dict returned by `_calculate_execution_score`. -/
structure ExecutionHealth where
  score : ℚ
  status : HealthStatus
  completed_tasks : Nat
  total_tasks : Nat
  blocked_tasks : Nat
deriving DecidableEq, Repr

/-- Source `_calculate_execution_score`: early return for an empty task list,
otherwise the weighted, clamped score rounded to one decimal, with the
status derived from the unrounded clamped score. -/
def calcExecutionScore (tasks : List DTask) : ExecutionHealth :=
  if tasks.isEmpty then ⟨100, .healthy, 0, 0, 0⟩
  else
    ⟨round1 (rawFinalScore tasks), statusOfScore (rawFinalScore tasks),
      countCompleted tasks, tasks.length, blockedCount tasks⟩

/-! Spec-side score definitions, following the words of the specification
("score = clamp(completionPct*0.6 + progressPct*0.3 - blockPct*0.1, 0,
100)"), for comparison with `calcExecutionScore`. -/

/-- Modelled from the spec: `completionPct = completed / total * 100 (100
if total == 0)`. -/
def specCompletionPct (tasks : List DTask) : ℚ :=
  if tasks.length = 0 then 100 else (countCompleted tasks : ℚ) / tasks.length * 100

/-- Modelled from the spec: `progressPct = (completed + 0.5*inProgress) /
total * 100`. -/
def specProgressPct (tasks : List DTask) : ℚ :=
  ((countCompleted tasks : ℚ) + 0.5 * (countInProgress tasks : ℚ)) / tasks.length * 100

/-- Modelled from the spec: blocked = count of Pending tasks having at
least one dependency that is present in the list and not Completed. -/
def specBlockedCount (tasks : List DTask) : Nat :=
  (tasks.filter (fun u =>
    decide (u.status = .pending) && u.dependencies.any (depBlocks tasks))).length

/-- Modelled from the spec: `blockPct = blocked / total * 100`. -/
def specBlockPct (tasks : List DTask) : ℚ :=
  (specBlockedCount tasks : ℚ) / tasks.length * 100

/-- Modelled from the spec: the clamped score formula. -/
def specScore (tasks : List DTask) : ℚ :=
  clampScore (specCompletionPct tasks * 0.6 + specProgressPct tasks * 0.3 -
    specBlockPct tasks * 0.1)

/-- Modelled from the spec: score ≥ 70 → Healthy; 40 ≤ score < 70 →
AtRisk; score < 40 → Critical. -/
def specStatus (tasks : List DTask) : HealthStatus :=
  if 70 ≤ specScore tasks then .healthy
  else if 40 ≤ specScore tasks then .at_risk
  else .critical

/-- Pending tasks all of whose dependency ids are blocking iff some
`isBlocked`-style predicate: characterization used to state that only
dependencies present in the list with a status other than Completed block
a task. -/
def BlockedCharacterization (tasks : List DTask) : Prop :=
  ∀ u, isBlocked tasks u = true ↔
    (u.status = .pending ∧ ∃ d ∈ u.dependencies,
      ∃ s, statusOf tasks d = some s ∧ s ≠ .completed)

/-! ## Agent pipeline (`backend/app/agents/graph.py`, `base.py`) -/

/-- The stage-output dict fields the pipeline core reads; every other key
is opaque and irrelevant to the data flow.  `error`/`agent` are set by the
failure branch of `BaseAgent.run`. -/
structure StageDict where
  tasks : Option (List RawTask) := none
  recommended_launch_timeline_days : Option Int := none
  error : Option String := none
  agent : Option String := none
deriving DecidableEq, Repr

/-- The empty dict `{}` used for the initial pipeline state. -/
def emptyDict : StageDict := {}

/-- The error-shaped result `{"error": str(e), "agent": self.name}`
returned by the `except` branch of `BaseAgent.run`. -/
def errorDict (e agentName : String) : StageDict :=
  { error := some e, agent := some agentName }

/-- Source `BaseAgent.run`: invoke the external reasoning call and catch any
failure into an error-shaped dict; never raises. -/
def runAgent {α : Type} (call : α → Except String StageDict) (agentName : String)
    (input : α) : StageDict :=
  match call input with
  | .ok r => r
  | .error e => errorDict e agentName

structure PipelineCtx where
  goal : String
  domain : String
  team_size : Int
deriving DecidableEq, Repr

structure ProductInput where
  goal : String
  domain : String
  team_size : Int
deriving DecidableEq, Repr

structure TechInput where
  product_output : StageDict
  team_size : Int
deriving DecidableEq, Repr

structure MarketingInput where
  product_output : StageDict
  timeline_days : Int
  domain : String
deriving DecidableEq, Repr

structure FinanceInput where
  tasks : List RawTask
  timeline_days : Int
  team_size : Int
deriving DecidableEq, Repr

structure AdvisorInput where
  product_output : StageDict
  tech_output : StageDict
  marketing_output : StageDict
  finance_output : StageDict
  startup_goal : String
  team_size : Int
deriving DecidableEq, Repr

/-- The LangGraph state threaded through the nodes. -/
structure PipelineState where
  product_output : StageDict
  tech_output : StageDict
  marketing_output : StageDict
  finance_output : StageDict
  advisor_output : StageDict
deriving DecidableEq, Repr

/-- The `initial_state` of `run_full_orchestration`: every output `{}`. -/
def initialState : PipelineState :=
  ⟨emptyDict, emptyDict, emptyDict, emptyDict, emptyDict⟩

/-- The five external reasoning calls, one per stage (each may fail). -/
structure Oracles where
  product : ProductInput → Except String StageDict
  tech : TechInput → Except String StageDict
  marketing : MarketingInput → Except String StageDict
  finance : FinanceInput → Except String StageDict
  advisor : AdvisorInput → Except String StageDict

/-- Input built by `product_node`. -/
def productInputOf (ctx : PipelineCtx) : ProductInput :=
  ⟨ctx.goal, ctx.domain, ctx.team_size⟩

/-- Input built by `tech_node`: the whole product output, verbatim. -/
def techInputOf (ctx : PipelineCtx) (s : PipelineState) : TechInput :=
  ⟨s.product_output, ctx.team_size⟩

/-- Input built by `marketing_node`: the whole product output plus the
timeline extracted with default 60. -/
def marketingInputOf (ctx : PipelineCtx) (s : PipelineState) : MarketingInput :=
  ⟨s.product_output, s.product_output.recommended_launch_timeline_days.getD 60, ctx.domain⟩

/-- Input built by `finance_node`: product tasks ++ tech tasks (each
`.get("tasks", [])`), the timeline with default 60, and the team size. -/
def financeInputOf (ctx : PipelineCtx) (s : PipelineState) : FinanceInput :=
  ⟨(s.product_output.tasks.getD []) ++ (s.tech_output.tasks.getD []),
    s.product_output.recommended_launch_timeline_days.getD 60, ctx.team_size⟩

/-- Input built by `advisor_node`: all four stage outputs, verbatim. -/
def advisorInputOf (ctx : PipelineCtx) (s : PipelineState) : AdvisorInput :=
  ⟨s.product_output, s.tech_output, s.marketing_output, s.finance_output,
    ctx.goal, ctx.team_size⟩

def stateAfterProduct (o : Oracles) (ctx : PipelineCtx) : PipelineState :=
  { initialState with
    product_output := runAgent o.product "product" (productInputOf ctx) }

def stateAfterTech (o : Oracles) (ctx : PipelineCtx) : PipelineState :=
  { stateAfterProduct o ctx with
    tech_output := runAgent o.tech "tech" (techInputOf ctx (stateAfterProduct o ctx)) }

def stateAfterMarketing (o : Oracles) (ctx : PipelineCtx) : PipelineState :=
  { stateAfterTech o ctx with
    marketing_output :=
      runAgent o.marketing "marketing" (marketingInputOf ctx (stateAfterTech o ctx)) }

def stateAfterFinance (o : Oracles) (ctx : PipelineCtx) : PipelineState :=
  { stateAfterMarketing o ctx with
    finance_output :=
      runAgent o.finance "finance" (financeInputOf ctx (stateAfterMarketing o ctx)) }

/-- The full sequential pipeline of `graph.py`:
product → tech → marketing → finance → advisor. -/
def runPipeline (o : Oracles) (ctx : PipelineCtx) : PipelineState :=
  { stateAfterFinance o ctx with
    advisor_output :=
      runAgent o.advisor "advisor" (advisorInputOf ctx (stateAfterFinance o ctx)) }

/-! ## Workflow graph structure (`graph.py` lines 99-111) -/

/-- The edges added by `workflow.add_edge(...)`; `"END"` stands for the
LangGraph END sentinel. -/
def workflowEdges : List (String × String) :=
  [("product", "tech"), ("tech", "marketing"), ("marketing", "finance"),
   ("finance", "advisor"), ("advisor", "END")]

/-- Source: `workflow.set_entry_point("product")`. -/
def entryPoint : String := "product"

/-- The successor nodes of a node in the compiled workflow: a node starts
only after one of its predecessors completes, so these are the only
start-after-completion edges. -/
def succsOf (n : String) : List String :=
  (workflowEdges.filter (fun e => e.1 = n)).map (fun e => e.2)

/-! ## Concrete fixtures used by counterexamples and witnesses -/

/-- A raw task with no declared dependencies. -/
def rPlain : RawTask := {}

/-- A raw task whose only local dependency is its own index 0. -/
def rSelf : RawTask := { dependencies := [.intRef 0] }

/-- A raw task depending on local index 0 (backward when its index is
positive). -/
def rDep0 : RawTask := { dependencies := [.intRef 0] }

/-- A raw task with the out-of-range local dependency 99. -/
def rDep99 : RawTask := { dependencies := [.intRef 99] }

/-- A raw task with only unresolvable dependency values: negative,
non-integer, and far out of range. -/
def rBad : RawTask := { dependencies := [.intRef (-3), .nonIntRef, .intRef 99] }

/-- Seven tasks: one completed, six pending, no dependencies. -/
def sevenTasks : List DTask :=
  [⟨0, "", 3, .completed, []⟩, ⟨1, "", 3, .pending, []⟩, ⟨2, "", 3, .pending, []⟩,
   ⟨3, "", 3, .pending, []⟩, ⟨4, "", 3, .pending, []⟩, ⟨5, "", 3, .pending, []⟩,
   ⟨6, "", 3, .pending, []⟩]

/-- A single completed task. -/
def oneCompleted : List DTask := [⟨0, "", 3, .completed, []⟩]

/-- Two completed tasks, the second depending on the first. -/
def twoCompleted : List DTask := [⟨0, "", 3, .completed, []⟩, ⟨1, "", 3, .completed, [0]⟩]

/-- A single pending task, no dependencies. -/
def onePending : List DTask := [⟨0, "", 3, .pending, []⟩]

/-- A pending task whose only dependency id (7) matches no task in the
list. -/
def danglingPending : DTask := ⟨0, "", 3, .pending, [7]⟩

/-- Oracles in which every stage succeeds with `{}` except tech, which
always fails with message "boom". -/
def boomOracles : Oracles :=
  { product := fun _ => .ok { tasks := some [rPlain] }
    tech := fun _ => .error "boom"
    marketing := fun _ => .ok emptyDict
    finance := fun _ => .ok emptyDict
    advisor := fun _ => .ok emptyDict }

/-- A concrete pipeline context. -/
def exCtx : PipelineCtx := ⟨"ship an mvp", "fintech", 3⟩

/-- Oracles in which every stage's external call fails with message
"boom". -/
def allBoomOracles : Oracles :=
  { product := fun _ => .error "boom"
    tech := fun _ => .error "boom"
    marketing := fun _ => .error "boom"
    finance := fun _ => .error "boom"
    advisor := fun _ => .error "boom" }

/-- What holds of a pipeline run whose product call failed with message
`e`: the product entry is the error-shaped result; tech, marketing,
finance and advisor all still execute (each output is its own oracle's
response to its input); the fields extracted from the product output
default (timeline 60, product tasks read as `[]`); and the inputs that
embed the product output wholesale (tech's, marketing's and the
advisor's `product_output`) carry the error-shaped object itself. -/
def ProductFailBlock (o : Oracles) (ctx : PipelineCtx) (e : String) : Prop :=
  (runPipeline o ctx).product_output = errorDict e "product" ∧
  (runPipeline o ctx).product_output.error = some e ∧
  (runPipeline o ctx).tech_output =
    runAgent o.tech "tech" (techInputOf ctx (stateAfterProduct o ctx)) ∧
  (techInputOf ctx (stateAfterProduct o ctx)).product_output = errorDict e "product" ∧
  (runPipeline o ctx).marketing_output =
    runAgent o.marketing "marketing" (marketingInputOf ctx (stateAfterTech o ctx)) ∧
  (marketingInputOf ctx (stateAfterTech o ctx)).product_output =
    errorDict e "product" ∧
  (marketingInputOf ctx (stateAfterTech o ctx)).timeline_days = 60 ∧
  (runPipeline o ctx).finance_output =
    runAgent o.finance "finance" (financeInputOf ctx (stateAfterMarketing o ctx)) ∧
  (financeInputOf ctx (stateAfterMarketing o ctx)).tasks =
    [] ++ (stateAfterMarketing o ctx).tech_output.tasks.getD [] ∧
  (financeInputOf ctx (stateAfterMarketing o ctx)).timeline_days = 60 ∧
  (runPipeline o ctx).advisor_output =
    runAgent o.advisor "advisor" (advisorInputOf ctx (stateAfterFinance o ctx)) ∧
  (advisorInputOf ctx (stateAfterFinance o ctx)).product_output = errorDict e "product"

/-- What holds of a pipeline run whose tech call failed with message `e`:
the tech entry is the error-shaped result; marketing, finance and advisor
all still execute; the marketing input does not depend on the tech output
at all; the finance input reads the tech tasks as `[]` — exactly as for
an empty tech output; and the advisor input embeds the error-shaped tech
output itself. -/
def TechFailBlock (o : Oracles) (ctx : PipelineCtx) (e : String) : Prop :=
  (runPipeline o ctx).tech_output = errorDict e "tech" ∧
  (runPipeline o ctx).tech_output.error = some e ∧
  (runPipeline o ctx).marketing_output =
    runAgent o.marketing "marketing" (marketingInputOf ctx (stateAfterTech o ctx)) ∧
  marketingInputOf ctx (stateAfterTech o ctx) =
    marketingInputOf ctx (stateAfterProduct o ctx) ∧
  (runPipeline o ctx).finance_output =
    runAgent o.finance "finance" (financeInputOf ctx (stateAfterMarketing o ctx)) ∧
  (financeInputOf ctx (stateAfterMarketing o ctx)).tasks =
    (stateAfterProduct o ctx).product_output.tasks.getD [] ++ [] ∧
  financeInputOf ctx (stateAfterMarketing o ctx) =
    financeInputOf ctx { stateAfterMarketing o ctx with tech_output := emptyDict } ∧
  (runPipeline o ctx).advisor_output =
    runAgent o.advisor "advisor" (advisorInputOf ctx (stateAfterFinance o ctx)) ∧
  (advisorInputOf ctx (stateAfterFinance o ctx)).tech_output = errorDict e "tech"

/-- What holds of a pipeline run whose marketing call failed with message
`e`: the marketing entry is the error-shaped result; finance and advisor
still execute; the finance input does not depend on the marketing output
at all; and the advisor input embeds the error-shaped marketing output
itself. -/
def MarketingFailBlock (o : Oracles) (ctx : PipelineCtx) (e : String) : Prop :=
  (runPipeline o ctx).marketing_output = errorDict e "marketing" ∧
  (runPipeline o ctx).marketing_output.error = some e ∧
  (runPipeline o ctx).finance_output =
    runAgent o.finance "finance" (financeInputOf ctx (stateAfterMarketing o ctx)) ∧
  financeInputOf ctx (stateAfterMarketing o ctx) =
    financeInputOf ctx (stateAfterTech o ctx) ∧
  (runPipeline o ctx).advisor_output =
    runAgent o.advisor "advisor" (advisorInputOf ctx (stateAfterFinance o ctx)) ∧
  (advisorInputOf ctx (stateAfterFinance o ctx)).marketing_output =
    errorDict e "marketing"

/-- What holds of a pipeline run whose finance call failed with message
`e`: the finance entry is the error-shaped result; the advisor still
executes and its input embeds the error-shaped finance output itself. -/
def FinanceFailBlock (o : Oracles) (ctx : PipelineCtx) (e : String) : Prop :=
  (runPipeline o ctx).finance_output = errorDict e "finance" ∧
  (runPipeline o ctx).finance_output.error = some e ∧
  (runPipeline o ctx).advisor_output =
    runAgent o.advisor "advisor" (advisorInputOf ctx (stateAfterFinance o ctx)) ∧
  (advisorInputOf ctx (stateAfterFinance o ctx)).finance_output = errorDict e "finance"

/-- What holds of a pipeline run whose advisor call failed with message
`e`: the advisor entry is the error-shaped result (there is no downstream
stage) and the pipeline still returns. -/
def AdvisorFailBlock (o : Oracles) (ctx : PipelineCtx) (e : String) : Prop :=
  (runPipeline o ctx).advisor_output = errorDict e "advisor" ∧
  (runPipeline o ctx).advisor_output.error = some e

/-! ## Structural lemmas about the graph builder -/

theorem buildStageAux_length (b l p t : Nat) (dept : Dept) (i : Nat) (ts : List RawTask) :
    (buildStageAux b l p t dept i ts).length = ts.length := by
  induction ts generalizing i with
  | nil => rfl
  | cons r rest ih => simp [buildStageAux, ih]

theorem buildStageAux_getQ (b l p t : Nat) (dept : Dept) (i : Nat) (ts : List RawTask)
    (k : Nat) :
    (buildStageAux b l p t dept i ts)[k]? =
      (ts[k]?).map (fun r => mkTask b l p t dept (i + k) r) := by
  induction ts generalizing i k with
  | nil => simp [buildStageAux]
  | cons r rest ih =>
    cases k with
    | zero => simp [buildStageAux]
    | succ k =>
      simp only [buildStageAux, List.getElem?_cons_succ, ih]
      have h : i + 1 + k = i + (k + 1) := by omega
      rw [h]

theorem buildStage_length (b l p t : Nat) (dept : Dept) (ts : List RawTask) :
    (buildStage b l p t dept ts).length = ts.length :=
  buildStageAux_length b l p t dept 0 ts

theorem buildStage_getQ (b l p t : Nat) (dept : Dept) (ts : List RawTask) (k : Nat) :
    (buildStage b l p t dept ts)[k]? = (ts[k]?).map (fun r => mkTask b l p t dept k r) := by
  unfold buildStage
  rw [buildStageAux_getQ]
  simp

theorem mem_buildStage (b l p t : Nat) (dept : Dept) (ts : List RawTask) (x : GTask) :
    x ∈ buildStage b l p t dept ts ↔
      ∃ k r, ts[k]? = some r ∧ x = mkTask b l p t dept k r := by
  rw [List.mem_iff_getElem?]
  constructor
  · rintro ⟨k, hk⟩
    rw [buildStage_getQ] at hk
    rcases Option.map_eq_some'.mp hk with ⟨r, hr, hx⟩
    exact ⟨k, r, hr, hx.symm⟩
  · rintro ⟨k, r, hr, hx⟩
    refine ⟨k, ?_⟩
    rw [buildStage_getQ, hr, hx]
    rfl

theorem buildGraph_length (prod tech mkt fin : List RawTask) :
    (buildGraph prod tech mkt fin).length =
      prod.length + tech.length + mkt.length + fin.length := by
  simp [buildGraph, buildStage_length]
  omega

theorem graph_getQ_prod (prod tech mkt fin : List RawTask) (k : Nat)
    (hk : k < prod.length) :
    (buildGraph prod tech mkt fin)[k]? =
      (prod[k]?).map
        (fun r => mkTask 0 prod.length prod.length tech.length .product k r) := by
  unfold buildGraph
  rw [List.getElem?_append_left (by simp only [List.length_append, buildStage_length]; omega)]
  rw [List.getElem?_append_left (by simp only [List.length_append, buildStage_length]; omega)]
  rw [List.getElem?_append_left (by simp only [List.length_append, buildStage_length]; omega)]
  rw [buildStage_getQ]

theorem graph_getQ_tech (prod tech mkt fin : List RawTask) (k : Nat)
    (hk : k < tech.length) :
    (buildGraph prod tech mkt fin)[prod.length + k]? =
      (tech[k]?).map
        (fun r =>
          mkTask prod.length tech.length prod.length tech.length .tech k r) := by
  unfold buildGraph
  rw [List.getElem?_append_left (by simp only [List.length_append, buildStage_length]; omega)]
  rw [List.getElem?_append_left (by simp only [List.length_append, buildStage_length]; omega)]
  rw [List.getElem?_append_right (by simp only [List.length_append, buildStage_length]; omega)]
  rw [buildStage_length, Nat.add_sub_cancel_left, buildStage_getQ]

theorem graph_getQ_mkt (prod tech mkt fin : List RawTask) (k : Nat)
    (hk : k < mkt.length) :
    (buildGraph prod tech mkt fin)[prod.length + tech.length + k]? =
      (mkt[k]?).map
        (fun r =>
          mkTask (prod.length + tech.length) mkt.length prod.length tech.length
            .marketing k r) := by
  unfold buildGraph
  rw [List.getElem?_append_left (by simp only [List.length_append, buildStage_length]; omega)]
  rw [List.getElem?_append_right (by simp only [List.length_append, buildStage_length]; omega)]
  have h : prod.length + tech.length + k -
      (buildStage 0 prod.length prod.length tech.length .product prod ++
        buildStage prod.length tech.length prod.length tech.length .tech tech).length =
      k := by
    simp [buildStage_length]
  rw [h, buildStage_getQ]

theorem graph_getQ_fin (prod tech mkt fin : List RawTask) (k : Nat)
    (_hk : k < fin.length) :
    (buildGraph prod tech mkt fin)[prod.length + tech.length + mkt.length + k]? =
      (fin[k]?).map
        (fun r =>
          mkTask (prod.length + tech.length + mkt.length) fin.length prod.length
            tech.length .finance k r) := by
  unfold buildGraph
  rw [List.getElem?_append_right (by simp only [List.length_append, buildStage_length]; omega)]
  have h : prod.length + tech.length + mkt.length + k -
      (buildStage 0 prod.length prod.length tech.length .product prod ++
          buildStage prod.length tech.length prod.length tech.length .tech tech ++
        buildStage (prod.length + tech.length) mkt.length prod.length tech.length
          .marketing mkt).length = k := by
    simp [buildStage_length]
    omega
  rw [h, buildStage_getQ]

/-- Every element of the assembled graph is the image of a raw task of
one of the four stages. -/
theorem graph_elim (prod tech mkt fin : List RawTask) (x : GTask)
    (hx : x ∈ buildGraph prod tech mkt fin) :
    (∃ k r, prod[k]? = some r ∧
        x = mkTask 0 prod.length prod.length tech.length .product k r) ∨
    (∃ k r, tech[k]? = some r ∧
        x = mkTask prod.length tech.length prod.length tech.length .tech k r) ∨
    (∃ k r, mkt[k]? = some r ∧
        x = mkTask (prod.length + tech.length) mkt.length prod.length tech.length
          .marketing k r) ∨
    (∃ k r, fin[k]? = some r ∧
        x = mkTask (prod.length + tech.length + mkt.length) fin.length prod.length
          tech.length .finance k r) := by
  unfold buildGraph at hx
  rcases List.mem_append.mp hx with hx | h
  · rcases List.mem_append.mp hx with hx | h
    · rcases List.mem_append.mp hx with h | h
      · exact Or.inl ((mem_buildStage _ _ _ _ _ _ _).mp h)
      · exact Or.inr (Or.inl ((mem_buildStage _ _ _ _ _ _ _).mp h))
    · exact Or.inr (Or.inr (Or.inl ((mem_buildStage _ _ _ _ _ _ _).mp h)))
  · exact Or.inr (Or.inr (Or.inr ((mem_buildStage _ _ _ _ _ _ _).mp h)))

/-- Membership in a built task's dependency list: either a resolved local
dependency or a synthesized cross-department one. -/
theorem mem_mkTask_deps (b l p t : Nat) (dept : Dept) (k : Nat) (r : RawTask) (d : Nat) :
    d ∈ (mkTask b l p t dept k r).deps ↔
      d ∈ localResolved b l r ∨ d ∈ synthDeps p t dept k := by
  simp [mkTask, localResolved, List.mem_dedup, List.mem_append]

/-- A successfully resolved local dependency lands inside the stage's
global index range. -/
theorem resolveRef_range (b l : Nat) (ref : LocalRef) (d : Nat)
    (h : resolveRef b l ref = some d) : b ≤ d ∧ d < b + l := by
  cases ref with
  | intRef v =>
    simp only [resolveRef] at h
    split at h
    · rename_i hv
      injection h with h
      omega
    · exact absurd h (by simp)
  | nonIntRef => exact absurd h (by simp [resolveRef])

theorem refsInRangeBackward_sound (l i : Nat) (refs : List LocalRef) (v : Int)
    (h : refsInRangeBackward l i refs = true) (hv : LocalRef.intRef v ∈ refs)
    (hin : 0 ≤ v ∧ v < (l : Int)) : v < (i : Int) := by
  induction refs with
  | nil => cases hv
  | cons ref rest ih =>
    cases ref with
    | intRef w =>
      simp only [refsInRangeBackward, Bool.and_eq_true, decide_eq_true_eq] at h
      rcases List.mem_cons.mp hv with hv | hv
      · injection hv with hv
        subst hv
        exact h.1 hin
      · exact ih h.2 hv
    | nonIntRef =>
      simp only [refsInRangeBackward] at h
      rcases List.mem_cons.mp hv with hv | hv
      · cases hv
      · exact ih h hv

theorem stageInRangeBackward_sound (l : Nat) (ts : List RawTask) (i k : Nat) (r : RawTask)
    (h : stageInRangeBackward l i ts = true) (hk : ts[k]? = some r) :
    refsInRangeBackward l (i + k) r.dependencies = true := by
  induction ts generalizing i k with
  | nil => cases hk
  | cons u rest ih =>
    simp only [stageInRangeBackward, Bool.and_eq_true] at h
    cases k with
    | zero =>
      simp only [List.getElem?_cons_zero] at hk
      injection hk with hk
      subst hk
      simpa using h.1
    | succ k =>
      simp only [List.getElem?_cons_succ] at hk
      have := ih (i + 1) k h.2 hk
      have heq : i + 1 + k = i + (k + 1) := by omega
      rwa [heq] at this

/-- If a stage's raw tasks declare only backward in-range local
dependencies, then every resolved local dependency of the task at local
index `k` is strictly below the task's own global index `b + k` (a value
only resolves when it is in range, and in-range values point backward by
hypothesis). -/
theorem localResolved_lt (b l : Nat) (ts : List RawTask) (k : Nat) (r : RawTask)
    (hb : stageInRangeBackward l 0 ts = true) (hk : ts[k]? = some r) (d : Nat)
    (hd : d ∈ localResolved b l r) : d < b + k := by
  rcases List.mem_filterMap.mp hd with ⟨ref, href, hres⟩
  cases ref with
  | intRef v =>
    simp only [resolveRef] at hres
    split at hres
    · rename_i hv
      injection hres with hres
      have hlt : v < (k : Int) := by
        have := stageInRangeBackward_sound l ts 0 k r hb hk
        exact refsInRangeBackward_sound l k r.dependencies v (by simpa using this)
          href hv
      omega
    · cases hres
  | nonIntRef => simp [resolveRef] at hres

/-- Under the backward-references hypothesis every dependency edge of the
assembled graph points from a higher global index to a strictly lower
one. -/
theorem depends_lt (prod tech mkt fin : List RawTask)
    (hp : stageInRangeBackward prod.length 0 prod = true)
    (ht : stageInRangeBackward tech.length 0 tech = true)
    (hm : stageInRangeBackward mkt.length 0 mkt = true)
    (hf : stageInRangeBackward fin.length 0 fin = true)
    (i j : Nat) (h : Depends (buildGraph prod tech mkt fin) i j) : j < i := by
  rcases h with ⟨x, hx, hidx, hdep⟩
  rcases graph_elim prod tech mkt fin x hx with
    ⟨k, r, hk, hxk⟩ | ⟨k, r, hk, hxk⟩ | ⟨k, r, hk, hxk⟩ | ⟨k, r, hk, hxk⟩ <;>
      subst hxk <;>
      rcases (mem_mkTask_deps _ _ _ _ _ _ _ _).mp hdep with hd | hd
  · have := localResolved_lt 0 prod.length prod k r hp hk j hd
    simp only [mkTask] at hidx
    omega
  · simp [synthDeps] at hd
  · have := localResolved_lt prod.length tech.length tech k r ht hk j hd
    simp only [mkTask] at hidx
    omega
  · simp only [synthDeps] at hd
    split at hd
    · rename_i hcond
      simp only [List.mem_singleton] at hd
      simp only [mkTask] at hidx
      omega
    · cases hd
  · have := localResolved_lt (prod.length + tech.length) mkt.length mkt k r hm hk j hd
    simp only [mkTask] at hidx
    omega
  · simp only [synthDeps] at hd
    split at hd
    · rename_i hcond
      simp only [List.mem_singleton] at hd
      simp only [mkTask] at hidx
      omega
    · cases hd
  · have := localResolved_lt (prod.length + tech.length + mkt.length) fin.length fin k r
      hf hk j hd
    simp only [mkTask] at hidx
    omega
  · simp only [synthDeps] at hd
    split at hd
    · rename_i hcond
      simp only [List.mem_singleton] at hd
      simp only [mkTask] at hidx
      omega
    · cases hd

/-- The task stored at global position `k` carries `k` as its positional
id. -/
theorem graph_idx (prod tech mkt fin : List RawTask) (k : Nat) (x : GTask)
    (h : (buildGraph prod tech mkt fin)[k]? = some x) : x.idx = k := by
  have hlen : k < prod.length + tech.length + mkt.length + fin.length := by
    have := (List.getElem?_eq_some.mp h).1
    rwa [buildGraph_length] at this
  by_cases h1 : k < prod.length
  · rw [graph_getQ_prod prod tech mkt fin k h1] at h
    rcases Option.map_eq_some'.mp h with ⟨r, _, hx⟩
    rw [← hx]
    simp [mkTask]
  by_cases h2 : k < prod.length + tech.length
  · have hk : k = prod.length + (k - prod.length) := by omega
    rw [hk] at h
    rw [graph_getQ_tech prod tech mkt fin _ (by omega)] at h
    rcases Option.map_eq_some'.mp h with ⟨r, _, hx⟩
    rw [← hx]
    simp [mkTask]
    omega
  by_cases h3 : k < prod.length + tech.length + mkt.length
  · have hk : k = prod.length + tech.length + (k - prod.length - tech.length) := by omega
    rw [hk] at h
    rw [graph_getQ_mkt prod tech mkt fin _ (by omega)] at h
    rcases Option.map_eq_some'.mp h with ⟨r, _, hx⟩
    rw [← hx]
    simp [mkTask]
    omega
  · have hk : k = prod.length + tech.length + mkt.length +
        (k - prod.length - tech.length - mkt.length) := by omega
    rw [hk] at h
    rw [graph_getQ_fin prod tech mkt fin _ (by omega)] at h
    rcases Option.map_eq_some'.mp h with ⟨r, _, hx⟩
    rw [← hx]
    simp [mkTask]
    omega

/-- Every dependency list produced by the builder is duplicate-free. -/
theorem graph_nodup_deps (prod tech mkt fin : List RawTask) (x : GTask)
    (hx : x ∈ buildGraph prod tech mkt fin) : x.deps.Nodup := by
  rcases graph_elim prod tech mkt fin x hx with
    ⟨k, r, hk, hxk⟩ | ⟨k, r, hk, hxk⟩ | ⟨k, r, hk, hxk⟩ | ⟨k, r, hk, hxk⟩ <;>
    subst hxk <;> exact List.nodup_dedup _

/-- Whether a dependency value resolves does not depend on the stage's
base index. -/
theorem resolveRef_isSome_congr (b l : Nat) (ref : LocalRef) :
    (resolveRef b l ref).isSome = (resolveRef 0 l ref).isSome := by
  cases ref with
  | intRef v =>
    simp only [resolveRef]
    split <;> rfl
  | nonIntRef => rfl

/-- Filtering out unresolvable values before resolution changes
nothing. -/
theorem filterMap_sanitize (b l : Nat) (refs : List LocalRef) :
    (refs.filter (fun ref => (resolveRef 0 l ref).isSome)).filterMap (resolveRef b l) =
      refs.filterMap (resolveRef b l) := by
  induction refs with
  | nil => rfl
  | cons ref rest ih =>
    by_cases hs : (resolveRef 0 l ref).isSome
    · rw [List.filter_cons_of_pos (by simpa using hs)]
      simp only [List.filterMap_cons, ih]
    · rw [List.filter_cons_of_neg (by simpa using hs)]
      have hnone : resolveRef b l ref = none := by
        have := resolveRef_isSome_congr b l ref
        rw [← Option.not_isSome_iff_eq_none]
        simp [this, hs]
      simp only [List.filterMap_cons, hnone, ih]

theorem mkTask_sanitize (b l p t : Nat) (dept : Dept) (loc : Nat) (r : RawTask) :
    mkTask b l p t dept loc (sanitizeTask l r) = mkTask b l p t dept loc r := by
  simp [mkTask, sanitizeTask, filterMap_sanitize]

theorem buildStageAux_sanitize (b l p t : Nat) (dept : Dept) (loc : Nat)
    (ts : List RawTask) :
    buildStageAux b l p t dept loc (ts.map (sanitizeTask l)) =
      buildStageAux b l p t dept loc ts := by
  induction ts generalizing loc with
  | nil => rfl
  | cons r rest ih => simp [buildStageAux, mkTask_sanitize, ih]

/-! ## Claim C1 (graph acyclicity) -/

/-- A dependency edge between saved tasks is the `dbId`-image of an edge
between positional ids of the pre-flush graph. -/
theorem depends_saved_elim (prod tech mkt fin : List RawTask) (dbId : Nat → Nat)
    (i j : Nat) (h : Depends (savedTasks dbId prod tech mkt fin) i j) :
    ∃ a b, i = dbId a ∧ j = dbId b ∧ Depends (buildGraph prod tech mkt fin) a b := by
  rcases h with ⟨x, hx, hidx, hdep⟩
  rcases List.mem_map.mp hx with ⟨y, hy, hxy⟩
  subst hxy
  simp only [remapTask] at hidx hdep
  rcases List.mem_map.mp hdep with ⟨c, hc, hdc⟩
  exact ⟨y.idx, c, hidx.symm, hdc.symm, ⟨y, hy, rfl, (List.mem_filter.mp hc).1⟩⟩

/-- Claim C1 fails as stated: a product stage consisting of one raw task
whose only local dependency is its own index 0 is an input on which graph
assembly produces a task that depends on itself — a cycle in the
dependency relation over the returned tasks.  The in-range self reference
passes the resolution filter (`isinstance(0, int) and 0 >= 0` and
`("product", 0)` is in the id map), so the claim's tolerance of
self-referencing inputs is refuted. -/
theorem c1_counterexample :
    ¬ AcyclicGraph (savedTasks (fun k => k + 1) [rSelf] [] [] []) := by
  intro h
  refine h 1 (Relation.TransGen.single ?_)
  exact ⟨remapTask 1 (fun k => k + 1) (mkTask 0 1 1 0 .product 0 rSelf),
    by decide, by decide, by decide⟩

/-- Claim C1 (amended): for every combination of input RawTask lists in
which every *in-range* integer local dependency value points strictly
backward (each resolvable value smaller than its task's own local
index) — while out-of-range, negative and non-integer values, which the
resolution filter drops, may appear anywhere — and for every injective
database-id assignment, the dependency relation over the returned tasks
contains no cycle.  (The unrestricted claim is false: an in-range self-
or forward-reference survives resolution and creates a cycle, see
`c1_counterexample`.) -/
theorem c1_backward_acyclic (prod tech mkt fin : List RawTask) (dbId : Nat → Nat)
    (hinj : Function.Injective dbId)
    (hp : stageInRangeBackward prod.length 0 prod = true)
    (ht : stageInRangeBackward tech.length 0 tech = true)
    (hm : stageInRangeBackward mkt.length 0 mkt = true)
    (hf : stageInRangeBackward fin.length 0 fin = true) :
    AcyclicGraph (savedTasks dbId prod tech mkt fin) := by
  intro i hcyc
  have key : ∀ a c, Relation.TransGen (Depends (savedTasks dbId prod tech mkt fin)) a c →
      ∃ a0 c0, a = dbId a0 ∧ c = dbId c0 ∧ c0 < a0 := by
    intro a c h
    induction h with
    | single h =>
      rcases depends_saved_elim prod tech mkt fin dbId _ _ h with ⟨a0, c0, ha, hc, hab⟩
      exact ⟨a0, c0, ha, hc, depends_lt prod tech mkt fin hp ht hm hf _ _ hab⟩
    | tail _ h ih =>
      rcases ih with ⟨a0, k0, ha, hk, hka⟩
      rcases depends_saved_elim prod tech mkt fin dbId _ _ h with ⟨k1, c0, hk1, hc, hkc⟩
      have hkk : k1 = k0 := hinj (hk1.symm.trans hk)
      subst hkk
      have := depends_lt prod tech mkt fin hp ht hm hf _ _ hkc
      exact ⟨a0, c0, ha, hc, by omega⟩
  rcases key i i hcyc with ⟨a0, c0, ha, hc, hca⟩
  have : a0 = c0 := hinj (ha.symm.trans hc)
  omega

/-- Witness for C1 (amended) at a concrete input whose only in-range
reference points backward while adversarial out-of-range (99), negative
(-3) and non-integer values appear throughout, with an injective id
assignment. -/
theorem c1_witness :
    AcyclicGraph (savedTasks (fun k => k + 100) [rBad, rDep0] [rPlain, rDep99] []
      [rBad]) :=
  c1_backward_acyclic [rBad, rDep0] [rPlain, rDep99] [] [rBad] (fun k => k + 100)
    (fun _ _ h => Nat.add_right_cancel h)
    (by decide) (by decide) (by decide) (by decide)

/-! ## Claim C9 (initial status) -/

/-- Claim C9: every Task created by graph assembly has initial status
Pending, regardless of any status field present in the RawTask data —
both before and after the database-id remapping. -/
theorem c9_status_pending (prod tech mkt fin : List RawTask) :
    (∀ x ∈ buildGraph prod tech mkt fin, x.status = TaskStatus.pending) ∧
    (∀ dbId : Nat → Nat, ∀ x ∈ savedTasks dbId prod tech mkt fin,
      x.status = TaskStatus.pending) := by
  constructor
  · intro x hx
    rcases graph_elim prod tech mkt fin x hx with
      ⟨k, r, hk, hxk⟩ | ⟨k, r, hk, hxk⟩ | ⟨k, r, hk, hxk⟩ | ⟨k, r, hk, hxk⟩ <;>
      subst hxk <;> rfl
  · intro dbId x hx
    rcases List.mem_map.mp hx with ⟨y, hy, hxy⟩
    have : y.status = TaskStatus.pending := by
      rcases graph_elim prod tech mkt fin y hy with
        ⟨k, r, hk, hyk⟩ | ⟨k, r, hk, hyk⟩ | ⟨k, r, hk, hyk⟩ | ⟨k, r, hk, hyk⟩ <;>
        subst hyk <;> rfl
    rw [← hxy]
    exact this

/-- Witness for C9 at a concrete input: a raw task carrying a stray
`status` key still yields a Pending task. -/
theorem c9_witness :
    (mkTask 0 1 1 0 Dept.product 0
      { status := some "completed", dependencies := [] }).status = TaskStatus.pending :=
  (c9_status_pending [{ status := some "completed", dependencies := [] }] [] [] []).1
    (mkTask 0 1 1 0 Dept.product 0 { status := some "completed", dependencies := [] })
    (by decide)

/-! ## Claim C5 (synthesized cross-stage edges) -/

/-- Claim C5: if the product list is non-empty the first tech task
depends on the first product task (id 0); if the tech list is non-empty
the first marketing and first finance tasks each depend on the first tech
task (id `prod.length`); and no other task gains any dependency beyond
its locally declared, resolved ones.  Ids here are the positional ids
assigned in stage order (the database remapping of C8 renames them
uniformly). -/
theorem c5_synthesized_edges (prod tech mkt fin : List RawTask) :
    (prod ≠ [] → tech ≠ [] →
      0 ∈ depsAt (buildGraph prod tech mkt fin) prod.length) ∧
    (tech ≠ [] → mkt ≠ [] →
      prod.length ∈ depsAt (buildGraph prod tech mkt fin)
        (prod.length + tech.length)) ∧
    (tech ≠ [] → fin ≠ [] →
      prod.length ∈ depsAt (buildGraph prod tech mkt fin)
        (prod.length + tech.length + mkt.length)) ∧
    NoSynthElsewhere prod tech mkt fin := by
  refine ⟨?_, ?_, ?_, ?_, ?_, ?_, ?_⟩
  · intro hp htech
    obtain ⟨r, rest, hr⟩ := List.exists_cons_of_ne_nil htech
    have h0 : tech[0]? = some r := by rw [hr]; simp
    have hq := graph_getQ_tech prod tech mkt fin 0 (by rw [hr]; simp)
    rw [Nat.add_zero] at hq
    rw [depsAt, hq, h0]
    simp only [Option.map_some', Option.getD_some]
    exact (mem_mkTask_deps _ _ _ _ _ _ _ _).mpr
      (Or.inr (by simp [synthDeps, List.length_pos.mpr hp]))
  · intro htech hmkt
    obtain ⟨r, rest, hr⟩ := List.exists_cons_of_ne_nil hmkt
    have h0 : mkt[0]? = some r := by rw [hr]; simp
    have hq := graph_getQ_mkt prod tech mkt fin 0 (by rw [hr]; simp)
    rw [Nat.add_zero] at hq
    rw [depsAt, hq, h0]
    simp only [Option.map_some', Option.getD_some]
    exact (mem_mkTask_deps _ _ _ _ _ _ _ _).mpr
      (Or.inr (by simp [synthDeps, List.length_pos.mpr htech]))
  · intro htech hfin
    obtain ⟨r, rest, hr⟩ := List.exists_cons_of_ne_nil hfin
    have h0 : fin[0]? = some r := by rw [hr]; simp
    have hq := graph_getQ_fin prod tech mkt fin 0 (by rw [hr]; simp)
    rw [Nat.add_zero] at hq
    rw [depsAt, hq, h0]
    simp only [Option.map_some', Option.getD_some]
    exact (mem_mkTask_deps _ _ _ _ _ _ _ _).mpr
      (Or.inr (by simp [synthDeps, List.length_pos.mpr htech]))
  · intro k r hk d hd
    have hklen : k < prod.length := (List.getElem?_eq_some.mp hk).1
    rw [depsAt, graph_getQ_prod prod tech mkt fin k hklen, hk] at hd
    simp only [Option.map_some', Option.getD_some] at hd
    rcases (mem_mkTask_deps _ _ _ _ _ _ _ _).mp hd with h | h
    · exact h
    · simp [synthDeps] at h
  · intro k r hkpos hk d hd
    have hklen : k < tech.length := (List.getElem?_eq_some.mp hk).1
    rw [depsAt, graph_getQ_tech prod tech mkt fin k hklen, hk] at hd
    simp only [Option.map_some', Option.getD_some] at hd
    rcases (mem_mkTask_deps _ _ _ _ _ _ _ _).mp hd with h | h
    · exact h
    · simp only [synthDeps] at h
      rw [if_neg (fun hc => absurd hc.1 (by omega))] at h
      cases h
  · intro k r hkpos hk d hd
    have hklen : k < mkt.length := (List.getElem?_eq_some.mp hk).1
    rw [depsAt, graph_getQ_mkt prod tech mkt fin k hklen, hk] at hd
    simp only [Option.map_some', Option.getD_some] at hd
    rcases (mem_mkTask_deps _ _ _ _ _ _ _ _).mp hd with h | h
    · exact h
    · simp only [synthDeps] at h
      rw [if_neg (fun hc => absurd hc.1 (by omega))] at h
      cases h
  · intro k r hkpos hk d hd
    have hklen : k < fin.length := (List.getElem?_eq_some.mp hk).1
    rw [depsAt, graph_getQ_fin prod tech mkt fin k hklen, hk] at hd
    simp only [Option.map_some', Option.getD_some] at hd
    rcases (mem_mkTask_deps _ _ _ _ _ _ _ _).mp hd with h | h
    · exact h
    · simp only [synthDeps] at h
      rw [if_neg (fun hc => absurd hc.1 (by omega))] at h
      cases h

/-- Witness for C5 at concrete non-empty stage lists. -/
theorem c5_witness :
    (0 ∈ depsAt (buildGraph [rPlain] [rPlain] [rPlain] [rPlain]) 1) ∧
    (1 ∈ depsAt (buildGraph [rPlain] [rPlain] [rPlain] [rPlain]) 2) ∧
    (1 ∈ depsAt (buildGraph [rPlain] [rPlain] [rPlain] [rPlain]) 3) ∧
    NoSynthElsewhere [rPlain] [rPlain] [rPlain] [rPlain] := by
  have h := c5_synthesized_edges [rPlain] [rPlain] [rPlain] [rPlain]
  exact ⟨h.1 (by decide) (by decide), h.2.1 (by decide) (by decide),
    h.2.2.1 (by decide) (by decide), h.2.2.2⟩

/-! ## Claim C6 (invalid local dependencies silently dropped) -/

/-- Claim C6: dependency values that do not resolve to a task of the same
stage (out of range, negative, or not an `int`) contribute nothing to the
assembled graph — deleting them from the input produces the identical
graph — and, concretely, the raw task with `local_dependencies = [99]` in
a two-task stage yields a task with an empty dependency list. -/
theorem c6_invalid_dropped (prod tech mkt fin : List RawTask) :
    buildGraph (sanitizeStage prod) (sanitizeStage tech) (sanitizeStage mkt)
      (sanitizeStage fin) = buildGraph prod tech mkt fin ∧
    depsAt (buildGraph [] [rPlain, rDep99] [] []) 1 = [] := by
  constructor
  · unfold buildGraph buildStage
    simp only [sanitizeStage, List.length_map]
    rw [buildStageAux_sanitize, buildStageAux_sanitize, buildStageAux_sanitize,
      buildStageAux_sanitize]
  · rfl

/-! ## Claim C8 (deduplicated, non-dangling dependency ids) -/

/-- Claim C8: for every input and every injective database-id assignment,
every saved task's dependency list is duplicate-free, and after the final
id remapping every id in it is the id of some task saved by the same
graph-assembly call. -/
theorem c8_wellformed (prod tech mkt fin : List RawTask) (dbId : Nat → Nat)
    (hinj : Function.Injective dbId) :
    WellFormedDeps (savedTasks dbId prod tech mkt fin) := by
  intro x hx
  rcases List.mem_map.mp hx with ⟨y, hy, hxy⟩
  subst hxy
  constructor
  · simp only [remapTask]
    exact ((graph_nodup_deps prod tech mkt fin y hy).filter _).map hinj
  · intro d hd
    simp only [remapTask] at hd
    rcases List.mem_map.mp hd with ⟨c, hc, hdc⟩
    have hcn : c < prod.length + tech.length + mkt.length + fin.length := by
      have := List.mem_filter.mp hc
      simpa using this.2
    have hclen : c < (buildGraph prod tech mkt fin).length := by
      rw [buildGraph_length]
      exact hcn
    refine ⟨remapTask (prod.length + tech.length + mkt.length + fin.length) dbId
      ((buildGraph prod tech mkt fin)[c]),
      List.mem_map_of_mem _ ((buildGraph prod tech mkt fin).getElem_mem hclen), ?_⟩
    have hidx : ((buildGraph prod tech mkt fin)[c]).idx = c :=
      graph_idx prod tech mkt fin c _ (List.getElem?_eq_getElem hclen)
    simp [remapTask, hidx, hdc]

/-- Witness for C8 with an injective id assignment at a concrete input. -/
theorem c8_witness :
    WellFormedDeps (savedTasks (fun k => k + 100) [rPlain, rDep0] [rDep0] [] []) :=
  c8_wellformed [rPlain, rDep0] [rDep0] [] [] (fun k => k + 100)
    (fun _ _ h => Nat.add_right_cancel h)

/-! ## Claim C7 (marketing/finance concurrency) -/

/-- Claim C7 fails on the code: the compiled workflow has no fan-out edge
from tech to finance; instead finance is the unique successor of
marketing, so finance starts only after marketing completes — marketing
and finance are ordered, not concurrent. -/
theorem c7_counterexample :
    ("tech", "finance") ∉ workflowEdges ∧
    succsOf "tech" = ["marketing"] ∧
    succsOf "marketing" = ["finance"] := by
  refine ⟨by decide, by decide, by decide⟩

/-- Claim C7 (amended): the workflow of `graph.py` is the strict
sequential chain product → tech → marketing → finance → advisor → END
(each node has exactly one successor, and the entry point is product);
in particular marketing always completes before finance starts, and
advisor starts only after finance completes — hence after both marketing
and finance. -/
theorem c7_sequential_chain :
    entryPoint = "product" ∧
    succsOf "product" = ["tech"] ∧
    succsOf "tech" = ["marketing"] ∧
    succsOf "marketing" = ["finance"] ∧
    succsOf "finance" = ["advisor"] ∧
    succsOf "advisor" = ["END"] := by
  refine ⟨rfl, by decide, by decide, by decide, by decide, by decide⟩

/-! ## Claim C10 (dangling dependency ids are ignored) -/

/-- A task is counted as blocked iff it is Pending and has at least one
dependency id that is present in the analyzed list with a status other
than Completed. -/
theorem isBlocked_iff (tasks : List DTask) (u : DTask) :
    isBlocked tasks u = true ↔
      (u.status = .pending ∧ ∃ d ∈ u.dependencies,
        ∃ s, statusOf tasks d = some s ∧ s ≠ .completed) := by
  unfold isBlocked
  constructor
  · intro h
    simp only [Bool.and_eq_true, decide_eq_true_eq, List.any_eq_true] at h
    obtain ⟨⟨hp, _⟩, d, hd, hblk⟩ := h
    refine ⟨hp, d, hd, ?_⟩
    unfold depBlocks at hblk
    cases hs : statusOf tasks d with
    | none => rw [hs] at hblk; simp at hblk
    | some s =>
      rw [hs] at hblk
      simp only [Option.elim_some, decide_eq_true_eq] at hblk
      exact ⟨s, rfl, hblk⟩
  · rintro ⟨hp, d, hd, s, hs, hns⟩
    simp only [Bool.and_eq_true, decide_eq_true_eq, List.any_eq_true]
    refine ⟨⟨hp, ?_⟩, d, hd, ?_⟩
    · simp [List.isEmpty_iff, List.ne_nil_of_mem hd]
    · unfold depBlocks
      rw [hs]
      simp [hns]

/-- Claim C10: blocked-task detection and the blocked count ignore
dependency ids that match no task in the analyzed list — a Pending task
all of whose dependency ids are absent is neither reported by
`_check_dependency_blocks` nor counted as blocked, and in general only
dependencies present in the list with a status other than Completed block
a task. -/
theorem c10_dangling_ignored (tasks : List DTask) (t : DTask) (_ht : t ∈ tasks)
    (_hp : t.status = .pending)
    (hd : ∀ d ∈ t.dependencies, statusOf tasks d = none) :
    t ∉ dependencyBlocks tasks ∧ isBlocked tasks t = false ∧
      BlockedCharacterization tasks := by
  have hblk : ∀ d ∈ t.dependencies, depBlocks tasks d = false := by
    intro d hdm
    unfold depBlocks
    rw [hd d hdm]
    rfl
  refine ⟨?_, ?_, fun u => isBlocked_iff tasks u⟩
  · intro hmem
    have hpred := (List.mem_filter.mp hmem).2
    have hbb : blockedBy tasks t = [] :=
      List.filter_eq_nil_iff.mpr (fun d hdm => by simp [hblk d hdm])
    rw [hbb] at hpred
    simp at hpred
  · have hany : t.dependencies.any (depBlocks tasks) = false := by
      rw [List.any_eq_false]
      intro d hdm
      simp [hblk d hdm]
    unfold isBlocked
    rw [hany]
    simp

/-- Witness for C10: the pending task with single dangling dependency id
7 in a one-task list. -/
theorem c10_witness :
    danglingPending ∉ dependencyBlocks [danglingPending] ∧
    isBlocked [danglingPending] danglingPending = false ∧
    BlockedCharacterization [danglingPending] :=
  c10_dangling_ignored [danglingPending] danglingPending (by decide) (by decide)
    (by decide)

/-! ## Claims C2 and C3 (execution-health score) -/

/-- For a non-empty task list the early return is skipped. -/
theorem calcExecutionScore_ne_nil (tasks : List DTask) (hne : tasks ≠ []) :
    calcExecutionScore tasks =
      ⟨round1 (rawFinalScore tasks), statusOfScore (rawFinalScore tasks),
        countCompleted tasks, tasks.length, blockedCount tasks⟩ := by
  unfold calcExecutionScore
  rw [if_neg]
  simp [List.isEmpty_iff, hne]

/-- The truthiness guard on the dependency list does not change the
blocked count. -/
theorem blockedCount_eq_spec (tasks : List DTask) :
    blockedCount tasks = specBlockedCount tasks := by
  unfold blockedCount specBlockedCount
  congr 1
  apply List.filter_congr
  intro u _
  unfold isBlocked
  cases hdeps : u.dependencies with
  | nil => simp
  | cons d rest => simp

/-- For a non-empty task list the code's clamped score equals the spec
formula's clamped score. -/
theorem rawFinalScore_eq_spec (tasks : List DTask) (hne : tasks ≠ []) :
    rawFinalScore tasks = specScore tasks := by
  have hlen : 0 < tasks.length := List.length_pos.mpr hne
  unfold rawFinalScore specScore
  congr 1
  rw [completionScoreOf, specCompletionPct, if_pos hlen, if_neg (by omega)]
  rw [progressScoreOf, specProgressPct, if_pos hlen]
  rw [blockScoreOf, specBlockPct, if_pos hlen, blockedCount_eq_spec]
  ring

/-- Claim C2 (amended): for every non-empty task list the analysis
returns the spec's clamped score rounded to one decimal
(`round(final_score, 1)` in the source), and the status is derived from
the unrounded clamped score by the spec thresholds (≥ 70 Healthy,
≥ 40 AtRisk, else Critical); for the empty task list the analysis
returns score 100 and Healthy directly (the claim's formula would give
90 there).  The claim as stated — the returned score equals the clamp
value exactly — fails whenever the clamp value is not a multiple of
1/10, see `c2_counterexample`. -/
theorem c2_score_formula (tasks : List DTask) :
    (tasks ≠ [] →
      (calcExecutionScore tasks).score = round1 (specScore tasks) ∧
      (calcExecutionScore tasks).status = specStatus tasks) ∧
    (tasks = [] →
      calcExecutionScore tasks = ⟨100, .healthy, 0, 0, 0⟩) := by
  constructor
  · intro hne
    rw [calcExecutionScore_ne_nil tasks hne]
    constructor
    · simp only [rawFinalScore_eq_spec tasks hne]
    · simp only [rawFinalScore_eq_spec tasks hne]
      unfold statusOfScore specStatus
      rfl
  · intro hnil
    subst hnil
    rfl

/-- Witness for C2 (amended) at a concrete non-empty input and at the
empty input. -/
theorem c2_witness :
    ((calcExecutionScore onePending).score = round1 (specScore onePending) ∧
      (calcExecutionScore onePending).status = specStatus onePending) ∧
    calcExecutionScore [] = ⟨100, .healthy, 0, 0, 0⟩ :=
  ⟨(c2_score_formula onePending).1 (by decide), (c2_score_formula []).2 rfl⟩

/-- Claim C2 fails as stated: on seven tasks of which exactly one is
completed the spec formula gives 90/7 ≈ 12.857, but the code returns the
rounded value 12.9 — the returned score is `round(clamp(...), 1)`, not
`clamp(...)`. -/
theorem c2_counterexample :
    (calcExecutionScore sevenTasks).score = 129/10 ∧
    specScore sevenTasks = 90/7 ∧
    (calcExecutionScore sevenTasks).score ≠ specScore sevenTasks := by
  have hraw : rawFinalScore sevenTasks = 90/7 := by
    norm_num [rawFinalScore, clampScore, completionScoreOf, progressScoreOf, blockScoreOf,
      show countCompleted sevenTasks = 1 from rfl,
      show countInProgress sevenTasks = 0 from rfl,
      show blockedCount sevenTasks = 0 from rfl,
      show sevenTasks.length = 7 from rfl]
  have hspec : specScore sevenTasks = 90/7 := by
    norm_num [specScore, clampScore, specCompletionPct, specProgressPct, specBlockPct,
      show countCompleted sevenTasks = 1 from rfl,
      show countInProgress sevenTasks = 0 from rfl,
      show specBlockedCount sevenTasks = 0 from rfl,
      show sevenTasks.length = 7 from rfl]
  have hround : round1 ((90:ℚ)/7) = 129/10 := by
    have hmul : ((90:ℚ)/7) * 10 = 900/7 := by norm_num
    have hfl : Int.floor ((900:ℚ)/7) = 128 := by norm_num [Int.floor_eq_iff]
    norm_num [round1, roundHalfEven, hmul, hfl]
  have hscore : (calcExecutionScore sevenTasks).score = 129/10 := by
    rw [calcExecutionScore_ne_nil sevenTasks (by decide)]
    simp only [hraw, hround]
  refine ⟨hscore, hspec, ?_⟩
  rw [hscore, hspec]
  norm_num

/-- Claim C3 (amended): for every non-empty task list in which every task
is Completed, the analysis returns score 90 — not 100: the completion and
progress weights sum to 0.9, so 90 is the maximum attainable score — and
status Healthy. -/
theorem c3_all_completed (tasks : List DTask) (hne : tasks ≠ [])
    (hall : tasks.all (fun u => decide (u.status = .completed)) = true) :
    (calcExecutionScore tasks).score = 90 ∧
    (calcExecutionScore tasks).status = HealthStatus.healthy := by
  have hmem : ∀ u ∈ tasks, u.status = .completed := by
    intro u hu
    have := List.all_eq_true.mp hall u hu
    simpa using this
  have hlen : 0 < tasks.length := List.length_pos.mpr hne
  have hc : countCompleted tasks = tasks.length := by
    unfold countCompleted
    rw [List.filter_eq_self.mpr (fun u hu => by simp [hmem u hu])]
  have hip : countInProgress tasks = 0 := by
    unfold countInProgress
    rw [List.filter_eq_nil_iff.mpr (fun u hu => by simp [hmem u hu])]
    rfl
  have hb : blockedCount tasks = 0 := by
    unfold blockedCount
    rw [List.filter_eq_nil_iff.mpr (fun u hu => by simp [isBlocked, hmem u hu])]
    rfl
  have hq : ((tasks.length : ℚ)) ≠ 0 := by
    exact_mod_cast Nat.pos_iff_ne_zero.mp hlen
  have h1 : completionScoreOf tasks = 100 := by
    unfold completionScoreOf
    rw [if_pos hlen, hc, div_self hq]
    norm_num
  have h2 : progressScoreOf tasks = 100 := by
    unfold progressScoreOf
    rw [if_pos hlen, hc, hip]
    norm_num [div_self hq]
  have h3 : blockScoreOf tasks = 0 := by
    unfold blockScoreOf
    rw [if_pos hlen, hb]
    norm_num
  have hraw : rawFinalScore tasks = 90 := by
    unfold rawFinalScore clampScore
    rw [h1, h2, h3]
    norm_num
  have hround : round1 (90:ℚ) = 90 := by
    have hfl : Int.floor ((900:ℚ)) = 900 := by norm_num
    norm_num [round1, roundHalfEven, hfl]
  rw [calcExecutionScore_ne_nil tasks hne]
  refine ⟨by simp only [hraw, hround], ?_⟩
  simp only [hraw]
  unfold statusOfScore
  norm_num

/-- Witness for C3 (amended): two completed tasks. -/
theorem c3_witness :
    (calcExecutionScore twoCompleted).score = 90 ∧
    (calcExecutionScore twoCompleted).status = HealthStatus.healthy :=
  c3_all_completed twoCompleted (by decide) (by decide)

/-- Claim C3 fails as stated: a single completed task (non-empty, all
Completed, zero blocked) yields score 90, not 100; the status is still
Healthy. -/
theorem c3_counterexample :
    (calcExecutionScore oneCompleted).score = 90 ∧
    (calcExecutionScore oneCompleted).status = HealthStatus.healthy ∧
    (90 : ℚ) ≠ 100 := by
  have hraw : rawFinalScore oneCompleted = 90 := by
    norm_num [rawFinalScore, clampScore, completionScoreOf, progressScoreOf, blockScoreOf,
      show countCompleted oneCompleted = 1 from rfl,
      show countInProgress oneCompleted = 0 from rfl,
      show blockedCount oneCompleted = 0 from rfl,
      show oneCompleted.length = 1 from rfl]
  have hround : round1 (90:ℚ) = 90 := by
    have hfl : Int.floor ((900:ℚ)) = 900 := by norm_num
    norm_num [round1, roundHalfEven, hfl]
  rw [calcExecutionScore_ne_nil oneCompleted (by decide)]
  refine ⟨by simp only [hraw, hround], ?_, by norm_num⟩
  simp only [hraw]
  unfold statusOfScore
  norm_num

/-! ## Claim C4 (partial failure of one stage) -/

/-- When the product call fails the product output in the state is
exactly the error-shaped dict. -/
theorem stateAfterProduct_fail (o : Oracles) (ctx : PipelineCtx) (e : String)
    (hfail : o.product (productInputOf ctx) = .error e) :
    stateAfterProduct o ctx =
      { initialState with product_output := errorDict e "product" } := by
  unfold stateAfterProduct runAgent
  rw [hfail]

/-- When the tech call fails the tech output in the state is exactly the
error-shaped dict. -/
theorem stateAfterTech_fail (o : Oracles) (ctx : PipelineCtx) (e : String)
    (hfail : o.tech (techInputOf ctx (stateAfterProduct o ctx)) = .error e) :
    stateAfterTech o ctx =
      { stateAfterProduct o ctx with tech_output := errorDict e "tech" } := by
  unfold stateAfterTech runAgent
  rw [hfail]

/-- When the marketing call fails the marketing output in the state is
exactly the error-shaped dict. -/
theorem stateAfterMarketing_fail (o : Oracles) (ctx : PipelineCtx) (e : String)
    (hfail : o.marketing (marketingInputOf ctx (stateAfterTech o ctx)) = .error e) :
    stateAfterMarketing o ctx =
      { stateAfterTech o ctx with marketing_output := errorDict e "marketing" } := by
  unfold stateAfterMarketing runAgent
  rw [hfail]

/-- When the finance call fails the finance output in the state is
exactly the error-shaped dict. -/
theorem stateAfterFinance_fail (o : Oracles) (ctx : PipelineCtx) (e : String)
    (hfail : o.finance (financeInputOf ctx (stateAfterMarketing o ctx)) = .error e) :
    stateAfterFinance o ctx =
      { stateAfterMarketing o ctx with finance_output := errorDict e "finance" } := by
  unfold stateAfterFinance runAgent
  rw [hfail]

/-- Claim C4 (amended): whichever single stage's external call fails, its
invocation yields the error-shaped `{"error": e, "agent": name}` result
instead of raising; every downstream stage still executes (its output is
its own oracle applied to its input), and the pipeline returns with the
failed stage's entry marked as an error.  Fields *extracted* from the
failed stage's output read documented defaults (a failed product's
timeline reads as 60 and its tasks as `[]`; a failed tech's tasks read as
`[]`, exactly as for an empty tech output), but inputs that embed a
stage output wholesale (tech's and marketing's `product_output`, the
advisor's four stage outputs) receive the error-shaped object itself,
not an empty/default object (see `c4_counterexample`). -/
theorem c4_partial_failure (o : Oracles) (ctx : PipelineCtx) (e : String) :
    (o.product (productInputOf ctx) = .error e → ProductFailBlock o ctx e) ∧
    (o.tech (techInputOf ctx (stateAfterProduct o ctx)) = .error e →
      TechFailBlock o ctx e) ∧
    (o.marketing (marketingInputOf ctx (stateAfterTech o ctx)) = .error e →
      MarketingFailBlock o ctx e) ∧
    (o.finance (financeInputOf ctx (stateAfterMarketing o ctx)) = .error e →
      FinanceFailBlock o ctx e) ∧
    (o.advisor (advisorInputOf ctx (stateAfterFinance o ctx)) = .error e →
      AdvisorFailBlock o ctx e) := by
  refine ⟨?_, ?_, ?_, ?_, ?_⟩
  · intro hfail
    have hprod := stateAfterProduct_fail o ctx e hfail
    unfold ProductFailBlock
    refine ⟨?_, ?_, rfl, ?_, rfl, ?_, ?_, rfl, ?_, ?_, rfl, ?_⟩
    · simp only [runPipeline, stateAfterFinance, stateAfterMarketing, stateAfterTech,
        hprod]
    · simp only [runPipeline, stateAfterFinance, stateAfterMarketing, stateAfterTech,
        hprod]
      rfl
    · simp only [techInputOf, hprod]
    · simp only [marketingInputOf, stateAfterTech, hprod]
    · simp only [marketingInputOf, stateAfterTech, hprod]
      rfl
    · simp only [financeInputOf, stateAfterMarketing, stateAfterTech, hprod]
      rfl
    · simp only [financeInputOf, stateAfterMarketing, stateAfterTech, hprod]
      rfl
    · simp only [advisorInputOf, stateAfterFinance, stateAfterMarketing, stateAfterTech,
        hprod]
  · intro hfail
    have htech := stateAfterTech_fail o ctx e hfail
    unfold TechFailBlock
    refine ⟨?_, ?_, rfl, ?_, rfl, ?_, ?_, rfl, ?_⟩
    · show (stateAfterFinance o ctx).tech_output = errorDict e "tech"
      unfold stateAfterFinance stateAfterMarketing
      rw [htech]
    · show (stateAfterFinance o ctx).tech_output.error = some e
      unfold stateAfterFinance stateAfterMarketing
      rw [htech]
      rfl
    · rw [htech]
      rfl
    · simp only [financeInputOf, stateAfterMarketing, htech]
      rfl
    · unfold financeInputOf
      unfold stateAfterMarketing
      rw [htech]
      rfl
    · unfold advisorInputOf
      unfold stateAfterFinance stateAfterMarketing
      rw [htech]
  · intro hfail
    have hmkt := stateAfterMarketing_fail o ctx e hfail
    unfold MarketingFailBlock
    refine ⟨?_, ?_, rfl, rfl, rfl, ?_⟩
    · simp only [runPipeline, stateAfterFinance, hmkt]
    · simp only [runPipeline, stateAfterFinance, hmkt]
      rfl
    · simp only [advisorInputOf, stateAfterFinance, hmkt]
  · intro hfail
    have hfin := stateAfterFinance_fail o ctx e hfail
    unfold FinanceFailBlock
    refine ⟨?_, ?_, rfl, ?_⟩
    · simp only [runPipeline, hfin]
    · simp only [runPipeline, hfin]
      rfl
    · simp only [advisorInputOf, hfin]
  · intro hfail
    unfold AdvisorFailBlock
    constructor
    · show runAgent o.advisor "advisor" (advisorInputOf ctx (stateAfterFinance o ctx)) =
        errorDict e "advisor"
      unfold runAgent
      rw [hfail]
    · show (runAgent o.advisor "advisor"
          (advisorInputOf ctx (stateAfterFinance o ctx))).error = some e
      unfold runAgent
      rw [hfail]
      rfl

/-- Witness for C4 (amended): with oracles in which every stage fails,
each of the five single-stage-failure hypotheses holds concretely. -/
theorem c4_witness :
    ProductFailBlock allBoomOracles exCtx "boom" ∧
    TechFailBlock allBoomOracles exCtx "boom" ∧
    MarketingFailBlock allBoomOracles exCtx "boom" ∧
    FinanceFailBlock allBoomOracles exCtx "boom" ∧
    AdvisorFailBlock allBoomOracles exCtx "boom" := by
  have h := c4_partial_failure allBoomOracles exCtx "boom"
  exact ⟨h.1 rfl, h.2.1 rfl, h.2.2.1 rfl, h.2.2.2.1 rfl, h.2.2.2.2 rfl⟩

/-- Claim C4 fails as stated on the "empty/default object" part: with the
failing-tech oracles the advisor — a downstream stage — receives the
error-shaped tech output verbatim in its input payload, which is not the
empty/default object. -/
theorem c4_counterexample :
    (advisorInputOf exCtx (stateAfterFinance boomOracles exCtx)).tech_output =
      errorDict "boom" "tech" ∧
    errorDict "boom" "tech" ≠ emptyDict := by
  exact ⟨rfl, by decide⟩

end StartupOps
